import Mathlib

/-!
Verification of the kasper ElasticsearchKeyValueStore
(file src/elasticsearch_kv.go of the repository).

The Go methods Get, GetAll, Put, PutAll and Delete are embedded as Lean
functions in two layers:

1. A pure "logic" function per method, translated line by line from the Go
   body.  Each logic function consumes the value that the elastic client
   call (client.Get().Do, multiGet.Do, bulk.Do, ...) returned, given as an
   Except value: Except.error models a non-nil Go error, Except.ok models
   a successful response struct.

2. A deterministic model of the backend plus the elastic v5 client, acting
   on an association-list state (document id to source bytes).  It produces
   exactly the responses the client library yields against a healthy
   Elasticsearch node: a GET of a missing document id yields the bare
   404 error whose rendering is "elastic: Error 404 (Not Found)", a DELETE
   of a missing document likewise yields a 404 error, mget answers one doc
   per requested id in request order, index and bulk upsert documents.

Go results of shape (value, error) are collapsed into the Res type below;
the extra constructor Res.panicked models a Go runtime panic (the source
contains an unchecked type assertion in Delete and pointer dereferences),
so that "the operation fails loudly" is expressible.
-/

/-- Byte strings are modelled as lists of naturals (Go []byte). -/
abbrev Bytes := List Nat

/-- The KeyValue pair of the repository data model: a string key together
with opaque value bytes (Go: type KeyValue struct with Key string and
Value []byte). -/
structure KeyValue where
  key : String
  value : Bytes
  deriving DecidableEq, Repr

/-- The zero Go value of the KeyValue struct: empty key, nil bytes.  GetAll
leaves exactly this value at the positions of keys the backend did not
find, because it writes into a zero-initialised slice. -/
def KeyValue.zero : KeyValue := { key := "", value := [] }

/-- Go errors as the store observes them: either a typed elastic error
carrying an HTTP status and optional details (reason and type strings), or
any other error carrying only its message. -/
inductive GoError where
  | elastic (status : Nat) (details : Option (String × String))
  | goErr (msg : String)
  deriving DecidableEq, Repr

/-- http.StatusText for the codes relevant here (used by the elastic v5
error rendering). -/
def statusText (code : Nat) : String :=
  if code = 404 then "Not Found"
  else if code = 400 then "Bad Request"
  else if code = 500 then "Internal Server Error"
  else ""

/-- The string produced by applying the %s verb to the error, as in the
source line: fmt.Sprintf with the error.  For elastic errors this is the
Error method of elastic.v5: with details it renders status, reason and
type; without details it renders the bare status line. -/
def GoError.render : GoError → String
  | .elastic status (some (reason, typ)) =>
      "elastic: Error " ++ toString status ++ " (" ++ statusText status ++ "): "
        ++ reason ++ " [type=" ++ typ ++ "]"
  | .elastic status none =>
      "elastic: Error " ++ toString status ++ " (" ++ statusText status ++ ")"
  | .goErr msg => msg

/-- Result of a store operation: ok collapses the Go pair (value, nil);
err collapses (zero value, non-nil error); panicked models a runtime
panic. -/
inductive Res (α : Type) where
  | ok (val : α)
  | err (e : GoError)
  | panicked (msg : String)
  deriving DecidableEq, Repr

/-- The elastic GetResult struct as far as Get reads it: the Found flag and
the Source pointer (none models a nil pointer). -/
structure GetResult where
  found : Bool
  source : Option Bytes
  deriving DecidableEq, Repr

/-- Body of the Go method Get (lines 114-135), given the outcome of the
client call.  Go checks the rendered error string against the bare 404
message first (with a nil error the %s rendering can never equal that
string, so matching on the Except is equivalent), then returns any other
error, then treats a response with Found false as absent, and finally
dereferences the Source pointer. -/
def esGetLogic (doResult : Except GoError GetResult) : Res (Option Bytes) :=
  match doResult with
  | .error e =>
      if e.render = "elastic: Error 404 (Not Found)" then Res.ok none
      else Res.err e
  | .ok rawValue =>
      if rawValue.found then
        match rawValue.source with
        | some src => Res.ok (some src)
        | none => Res.panicked "invalid memory address or nil pointer dereference"
      else Res.ok none

/-- Backend state: association list from document id to source bytes. -/
abbrev Store := List (String × Bytes)

/-- First-match lookup in the association list. -/
def lookupKey : Store → String → Option Bytes
  | [], _ => none
  | (k0, v) :: rest, k => if k0 = k then some v else lookupKey rest k

/-- Indexing a document replaces any previous document under the same id;
with first-match lookup a prepend realises that. -/
def insertDoc (st : Store) (k : String) (v : Bytes) : Store := (k, v) :: st

/-- Deleting a document removes every binding of the id. -/
def eraseDoc (st : Store) (k : String) : Store := st.filter (fun p => p.1 ≠ k)

/-- The elastic v5 client GET call against the modelled backend: a present
document id yields a found result carrying the source; a missing id yields
the bare 404 error (the 404 body of a document GET has no error object, so
the client builds the error without details). -/
def clientGet (st : Store) (key : String) : Except GoError GetResult :=
  match lookupKey st key with
  | some v => .ok { found := true, source := some v }
  | none => .error (GoError.elastic 404 none)

/-- Get against the modelled backend. -/
def esGet (st : Store) (key : String) : Res (Option Bytes) :=
  esGetLogic (clientGet st key)

/-- One document entry of an mget response: the Found flag together with
the source when found (the backend always sends the source of a found
document, so the Source pointer is non-nil exactly in the found case). -/
inductive MgetDoc where
  | docFound (source : Bytes)
  | docMissing
  deriving DecidableEq, Repr

/-- The elastic MgetResponse as far as GetAll reads it: the Docs slice. -/
structure MgetResponse where
  docs : List MgetDoc
  deriving DecidableEq, Repr

/-- The loop of GetAll (lines 157-162): kvs is allocated as a slice of
len(keys) zero values, and position i is overwritten with keys[i] and the
doc source whenever the i-th response doc is found.  Positions beyond the
docs slice keep the zero value. -/
def buildKvs : List String → List MgetDoc → List KeyValue
  | [], _ => []
  | _ :: ks, [] => KeyValue.zero :: buildKvs ks []
  | k :: ks, MgetDoc.docFound src :: ds =>
      { key := k, value := src } :: buildKvs ks ds
  | _ :: ks, MgetDoc.docMissing :: ds => KeyValue.zero :: buildKvs ks ds

/-- Body of the Go method GetAll (lines 138-164), given the outcome of the
multiGet.Do call.  An empty key list returns nil, nil before any client
call is made. -/
def esGetAllLogic (keys : List String) (doResult : Except GoError MgetResponse) :
    Res (List KeyValue) :=
  if keys.isEmpty then Res.ok []
  else
    match doResult with
    | .error e => Res.err e
    | .ok response => Res.ok (buildKvs keys response.docs)

/-- The elastic client mget call against the modelled backend: one doc per
requested id, in request order. -/
def clientMultiGet (st : Store) (keys : List String) : MgetResponse :=
  { docs := keys.map (fun k =>
      match lookupKey st k with
      | some v => MgetDoc.docFound v
      | none => MgetDoc.docMissing) }

/-- GetAll against the modelled backend. -/
def esGetAll (st : Store) (keys : List String) : Res (List KeyValue) :=
  esGetAllLogic keys (.ok (clientMultiGet st keys))

/-- Body of the Go method Put (lines 167-178): the error of the Index call
is returned as is. -/
def esPutLogic (doResult : Except GoError Unit) : Res Unit :=
  match doResult with
  | .ok _ => Res.ok ()
  | .error e => Res.err e

/-- Put against the modelled backend: the index call stores the value
bytes verbatim under the key and succeeds. -/
def esPut (st : Store) (key : String) (value : Bytes) : Res Unit × Store :=
  (esPutLogic (.ok ()), insertDoc st key value)

/-- One entry of BulkResponse.Failed() as createBulkError reads it: the
document id and the optional error details reason (none models a nil Error
pointer). -/
structure BulkFailedItem where
  id : String
  errorReason : Option String
  deriving DecidableEq, Repr

/-- The elastic BulkResponse as far as PutAll reads it: the Errors flag and
the failed items extracted by Failed(). -/
structure BulkResponse where
  errors : Bool
  failed : List BulkFailedItem
  deriving DecidableEq, Repr

/-- Source constant maxBulkErrorReasons (line 11). -/
def maxBulkErrorReasons : Nat := 5

/-- The reason line appended for one failed item when its Error field is
non-nil (line 247). -/
def reasonLine (item : BulkFailedItem) : Option String :=
  item.errorReason.map (fun reason =>
    "id = " ++ item.id ++ ", error = " ++ reason ++ "\n")

/-- The loop of createBulkError (lines 245-255): i counts the failed items
from 0; an item with non-nil Error contributes its reason line; when i
reaches maxBulkErrorReasons - 1 the omitted line is appended and the loop
breaks.  total is len(failed); the subtraction is only reached when at
least maxBulkErrorReasons items exist, so the Go int subtraction agrees
with the Nat subtraction here. -/
def bulkReasonsAux (total : Nat) : Nat → List BulkFailedItem → List String
  | _, [] => []
  | i, item :: rest =>
      let rs := match reasonLine item with
                | some line => [line]
                | none => []
      if i = maxBulkErrorReasons - 1 then
        rs ++ ["(omitted " ++ toString (total - maxBulkErrorReasons) ++ " more errors)"]
      else
        rs ++ bulkReasonsAux total (i + 1) rest

/-- The Go function createBulkError (lines 242-258): the reasons are
joined with the empty separator behind the fixed header. -/
def createBulkError (response : BulkResponse) : GoError :=
  GoError.goErr ("PutAll failed for some requests:\n"
    ++ String.join (bulkReasonsAux response.failed.length 0 response.failed))

/-- Body of the Go method PutAll (lines 181-203), given the outcome of the
bulk.Do call: empty input returns nil before any client call; a failed
bulk call returns its error; a response with the Errors flag set returns
the aggregated error; otherwise nil. -/
def esPutAllLogic (kvs : List KeyValue) (doResult : Except GoError BulkResponse) :
    Res Unit :=
  if kvs.isEmpty then Res.ok ()
  else
    match doResult with
    | .error e => Res.err e
    | .ok response =>
        if response.errors then Res.err (createBulkError response)
        else Res.ok ()

/-- Applying all writes of a bulk request in order. -/
def insertAll (st : Store) (kvs : List KeyValue) : Store :=
  kvs.foldl (fun s kv => insertDoc s kv.key kv.value) st

/-- The elastic client bulk call against the modelled backend: every
individual index request succeeds, so the Errors flag is false and the
failed list empty. -/
def clientBulk (st : Store) (kvs : List KeyValue) : BulkResponse × Store :=
  ({ errors := false, failed := [] }, insertAll st kvs)

/-- PutAll against the modelled backend (the state is unchanged for an
empty input because insertAll of an empty list is the identity). -/
def esPutAll (st : Store) (kvs : List KeyValue) : Res Unit × Store :=
  (esPutAllLogic kvs (.ok (clientBulk st kvs).1), (clientBulk st kvs).2)

/-- Body of the Go method Delete (lines 206-220), given the outcome of the
client Delete call.  On a non-nil error the source asserts the dynamic
type with err.(*elastic.Error), which panics for any other error type;
an elastic error with status 404 is swallowed, any other error is
returned. -/
def esDeleteLogic (doResult : Except GoError Unit) : Res Unit :=
  match doResult with
  | .ok _ => Res.ok ()
  | .error e =>
      match e with
      | GoError.elastic status _ =>
          if status = 404 then Res.ok () else Res.err e
      | GoError.goErr _ =>
          Res.panicked "interface conversion: error is not *elastic.Error"

/-- The elastic client Delete call against the modelled backend: deleting
a present document removes it and succeeds; deleting a missing document
yields the 404 error (the 404 body of a document DELETE has no error
object, so the client builds the error without details). -/
def clientDelete (st : Store) (key : String) : Except GoError Unit × Store :=
  match lookupKey st key with
  | some _ => (.ok (), eraseDoc st key)
  | none => (.error (GoError.elastic 404 none), st)

/-- Delete against the modelled backend. -/
def esDelete (st : Store) (key : String) : Res Unit × Store :=
  (esDeleteLogic (clientDelete st key).1, (clientDelete st key).2)

/-- The responses with which the backend reports a key as not found on a
document GET: either the bare 404 error (what the elastic v5 client
returns for a GET of a missing id) or a response whose Found flag is
false. -/
def reportsNotFound : Except GoError GetResult → Prop
  | .error e => e = GoError.elastic 404 none
  | .ok rawValue => rawValue.found = false


/-- The entry GetAll yields for one requested key against state st: the
stored pair when the key is found, the zero KeyValue otherwise.  Used to
phrase the GetAll results below. -/
def entryFor (st : Store) (k : String) : KeyValue :=
  match lookupKey st k with
  | some v => { key := k, value := v }
  | none => KeyValue.zero

/-- Whether the character list starts with the pattern. -/
def charsStartWith : List Char → List Char → Bool
  | [], _ => true
  | _ :: _, [] => false
  | p :: ps, c :: cs => p == c && charsStartWith ps cs

/-- Whether the pattern occurs contiguously anywhere in the character
list.  Used to state that an error message does not mention a word. -/
def hasSub (pat : List Char) : List Char → Bool
  | [] => charsStartWith pat []
  | c :: cs => charsStartWith pat (c :: cs) || hasSub pat cs

/-- A one-document store state used as concrete input below. -/
def demoStore : Store := [("a", [1])]

/-- A concrete PutAll batch of 10 keys. -/
def bulkDemoKvs : List KeyValue :=
  [⟨"k0", [0]⟩, ⟨"k1", [1]⟩, ⟨"k2", [2]⟩, ⟨"k3", [3]⟩, ⟨"k4", [4]⟩,
   ⟨"k5", [5]⟩, ⟨"k6", [6]⟩, ⟨"k7", [7]⟩, ⟨"k8", [8]⟩, ⟨"k9", [9]⟩]

/-- A bulk response for that batch in which exactly 3 individual writes
failed (the bulk call itself succeeded). -/
def bulkDemoResponse3 : BulkResponse :=
  { errors := true,
    failed := [⟨"k1", some "mapper_parsing_exception"⟩,
               ⟨"k4", some "version_conflict_engine_exception"⟩,
               ⟨"k7", some "mapper_parsing_exception"⟩] }

/-- The aggregated message createBulkError produces for that response. -/
def bulkDemoMessage3 : String :=
  "PutAll failed for some requests:\n"
    ++ "id = k1, error = mapper_parsing_exception\n"
    ++ "id = k4, error = version_conflict_engine_exception\n"
    ++ "id = k7, error = mapper_parsing_exception\n"

/-- A bulk response with 6 individual failures, one of them without error
details. -/
def bulkDemoResponse6 : BulkResponse :=
  { errors := true,
    failed := [⟨"k0", some "e0"⟩, ⟨"k1", some "e1"⟩, ⟨"k2", none⟩,
               ⟨"k3", some "e3"⟩, ⟨"k4", some "e4"⟩, ⟨"k5", some "e5"⟩] }

/-! Basic lemmas about the backend state model. -/

theorem lookupKey_insertDoc_self (st : Store) (k : String) (v : Bytes) :
    lookupKey (insertDoc st k v) k = some v := by
  simp [insertDoc, lookupKey]

theorem lookupKey_insertDoc_ne (st : Store) (a k : String) (b : Bytes)
    (h : a ≠ k) : lookupKey (insertDoc st a b) k = lookupKey st k := by
  simp [insertDoc, lookupKey, h]

theorem lookupKey_eraseDoc_self (st : Store) (k : String) :
    lookupKey (eraseDoc st k) k = none := by
  induction st with
  | nil => rfl
  | cons p rest ih =>
      rcases p with ⟨a, b⟩
      by_cases h : a = k
      · simpa [eraseDoc, List.filter_cons, h] using ih
      · simpa [eraseDoc, List.filter_cons, h, lookupKey] using ih

theorem esGetLogic_error404 :
    esGetLogic (Except.error (GoError.elastic 404 none)) = Res.ok none := by
  decide

/-- Claim C1: whenever the backend reports the requested key as not found
(the bare 404 error the elastic v5 client produces for a GET of a missing
document, or a response whose Found flag is false), Get returns an absent
value (nil bytes) with a nil error; equivalently, a Get of a key that is
absent from the store state returns absent with a nil error. -/
theorem get_notFound_absent (st : Store) (key : String)
    (r : Except GoError GetResult) (hr : reportsNotFound r)
    (habsent : lookupKey st key = none) :
    esGetLogic r = Res.ok none ∧ esGet st key = Res.ok none := by
  constructor
  · match r with
    | .error e =>
        have he : e = GoError.elastic 404 none := hr
        subst he
        exact esGetLogic_error404
    | .ok rawValue =>
        have hf : rawValue.found = false := hr
        simp [esGetLogic, hf]
  · simp only [esGet, clientGet, habsent]
    exact esGetLogic_error404

/-- Witness for claim C1 at a concrete not-found response and an empty
store state. -/
theorem get_notFound_absent_witness :
    reportsNotFound (Except.error (GoError.elastic 404 none)) ∧
    lookupKey [] "missing" = none ∧
    (esGetLogic (Except.error (GoError.elastic 404 none)) = Res.ok none ∧
      esGet [] "missing" = Res.ok none) :=
  ⟨rfl, rfl,
    get_notFound_absent [] "missing" (Except.error (GoError.elastic 404 none)) rfl rfl⟩

/-- Claim C4 (code evidence): none of the store operations validates the
shape of a key.  The key "foo" — the very key the repository test
TestElasticsearchKeyValueStore_InvalidKey expects every operation to
panic on — is passed straight to the backend by Get, Put, GetAll, PutAll
and Delete, all of which complete normally (no Res.panicked, no error). -/
theorem invalidKey_no_validation :
    esGet [] "foo" = Res.ok none ∧
    (esPut [] "foo" [42]).1 = Res.ok () ∧
    esGet (esPut [] "foo" [42]).2 "foo" = Res.ok (some [42]) ∧
    (esDelete (esPut [] "foo" [42]).2 "foo").1 = Res.ok () ∧
    esGetAll (esPut [] "foo" [42]).2 ["foo"]
      = Res.ok [{ key := "foo", value := [42] }] ∧
    (esPutAll [] [{ key := "foo", value := [42] }]).1 = Res.ok () := by
  decide

/-- Claim C5: deleting a key that is absent from the store (the backend
answers the DELETE with a 404 error) returns a nil error. -/
theorem delete_absent_ok (st : Store) (key : String)
    (habsent : lookupKey st key = none) :
    (esDelete st key).1 = Res.ok () := by
  simp only [esDelete, clientDelete, habsent]
  decide

/-- Witness for claim C5 at an empty store state. -/
theorem delete_absent_ok_witness :
    lookupKey [] "ghost" = none ∧ (esDelete [] "ghost").1 = Res.ok () :=
  ⟨rfl, delete_absent_ok [] "ghost" rfl⟩

/-- Claim C6: a Put of value bytes under a key succeeds against the
modelled backend, and an immediately following Get of that key returns
exactly the stored bytes. -/
theorem put_then_get (st : Store) (key : String) (value : Bytes) :
    (esPut st key value).1 = Res.ok () ∧
    esGet (esPut st key value).2 key = Res.ok (some value) := by
  refine ⟨rfl, ?_⟩
  show esGet (insertDoc st key value) key = Res.ok (some value)
  simp [esGet, clientGet, lookupKey_insertDoc_self, esGetLogic]

/-- Claim C7: after a Put of a key followed by a Delete of the same key,
the Delete returns a nil error and a following Get of the key returns
absent with a nil error. -/
theorem put_delete_get (st : Store) (key : String) (value : Bytes) :
    (esDelete (esPut st key value).2 key).1 = Res.ok () ∧
    esGet (esDelete (esPut st key value).2 key).2 key = Res.ok none := by
  have hst : (esPut st key value).2 = insertDoc st key value := rfl
  have hlook : lookupKey (insertDoc st key value) key = some value :=
    lookupKey_insertDoc_self st key value
  constructor
  · rw [hst]
    simp only [esDelete, clientDelete, hlook]
    rfl
  · rw [hst]
    have h2 : (esDelete (insertDoc st key value) key).2
        = eraseDoc (insertDoc st key value) key := by
      simp only [esDelete, clientDelete, hlook]
    rw [h2]
    have h3 : lookupKey (eraseDoc (insertDoc st key value) key) key = none :=
      lookupKey_eraseDoc_self (insertDoc st key value) key
    simp only [esGet, clientGet, h3]
    exact esGetLogic_error404

/-- Claim C9: GetAll of an empty key list returns an empty result with a
nil error, and does so for every possible backend outcome, because the
source returns before issuing any request. -/
theorem getAll_empty_keys (st : Store) (doResult : Except GoError MgetResponse) :
    esGetAllLogic [] doResult = Res.ok [] ∧ esGetAll st [] = Res.ok [] :=
  ⟨rfl, rfl⟩

/-! GetAll against the modelled backend, characterised per position. -/

theorem buildKvs_clientMultiGet (st : Store) (keys : List String) :
    buildKvs keys (clientMultiGet st keys).docs = keys.map (entryFor st) := by
  induction keys with
  | nil => rfl
  | cons k ks ih =>
      cases h : lookupKey st k with
      | some v => simp_all [clientMultiGet, buildKvs, entryFor, h]
      | none => simp_all [clientMultiGet, buildKvs, entryFor, h]

theorem esGetAll_eq (st : Store) (keys : List String) :
    esGetAll st keys = Res.ok (keys.map (entryFor st)) := by
  cases keys with
  | nil => rfl
  | cons k ks =>
      have hb := buildKvs_clientMultiGet st (k :: ks)
      simp [esGetAll, esGetAllLogic, hb]

/-- Claim C10: for a non-empty key list (and a successful backend call,
which the modelled backend always provides), GetAll returns one entry per
requested key in input order: the stored pair for a found key, the zero
KeyValue for a key that was not found. -/
theorem getAll_positional (st : Store) (keys : List String)
    (_hne : keys ≠ []) :
    esGetAll st keys = Res.ok (keys.map (entryFor st)) :=
  esGetAll_eq st keys

/-- Witness for claim C10: two keys, of which only the first is stored. -/
theorem getAll_positional_witness :
    (["a", "b"] : List String) ≠ [] ∧
    esGetAll demoStore ["a", "b"]
      = Res.ok [{ key := "a", value := [1] }, KeyValue.zero] :=
  ⟨by decide, getAll_positional demoStore ["a", "b"] (by decide)⟩

/-- Claim C2 (counterexample): with only "a" stored, GetAll of the keys
"a" and "b" does not return just the found entry: the result carries a
second, zero-valued KeyValue in the position of the missing key "b", so
the returned list is not (even as a set) the list of found entries. -/
theorem getAll_missing_key_placeholder :
    esGetAll demoStore ["a", "b"]
      = Res.ok [{ key := "a", value := [1] }, KeyValue.zero] ∧
    KeyValue.zero ∈ [({ key := "a", value := [1] } : KeyValue), KeyValue.zero] ∧
    KeyValue.zero.key ∉ (["a", "b"] : List String) ∧
    ([({ key := "a", value := [1] } : KeyValue), KeyValue.zero]
      ≠ [({ key := "a", value := [1] } : KeyValue)]) := by
  decide

theorem foundEntries_sublist (st : Store) (keys : List String) :
    List.Sublist
      (keys.filterMap (fun k => (lookupKey st k).map
        (fun v => ({ key := k, value := v } : KeyValue))))
      (keys.map (entryFor st)) := by
  induction keys with
  | nil => exact List.Sublist.refl []
  | cons k ks ih =>
      cases h : lookupKey st k with
      | some v =>
          simp only [List.filterMap_cons, List.map_cons, h, entryFor, Option.map_some]
          exact List.Sublist.cons₂ _ ih
      | none =>
          simp only [List.filterMap_cons, List.map_cons, h, entryFor, Option.map_none]
          exact List.Sublist.cons _ ih

/-- Claim C2 (amended): for a non-empty key list, GetAll returns exactly
one entry per requested key in input order; the entries of the found keys
all appear (in order, as a sublist), and the positions of the keys that
were not found hold the zero KeyValue rather than being dropped. -/
theorem getAll_found_entries (st : Store) (keys : List String)
    (_hne : keys ≠ []) :
    esGetAll st keys = Res.ok (keys.map (entryFor st)) ∧
    List.Sublist
      (keys.filterMap (fun k => (lookupKey st k).map
        (fun v => ({ key := k, value := v } : KeyValue))))
      (keys.map (entryFor st)) ∧
    (keys.map (entryFor st)).length = keys.length :=
  ⟨esGetAll_eq st keys, foundEntries_sublist st keys, by simp⟩

/-- Witness for the amended claim C2: two keys, of which only the first
is stored. -/
theorem getAll_found_entries_witness :
    (["a", "b"] : List String) ≠ [] ∧
    (esGetAll demoStore ["a", "b"]
        = Res.ok [{ key := "a", value := [1] }, KeyValue.zero] ∧
      List.Sublist [({ key := "a", value := [1] } : KeyValue)]
        [({ key := "a", value := [1] } : KeyValue), KeyValue.zero] ∧
      ([({ key := "a", value := [1] } : KeyValue), KeyValue.zero] : List KeyValue).length
        = (["a", "b"] : List String).length) :=
  ⟨by decide, getAll_found_entries demoStore ["a", "b"] (by decide)⟩

/-! PutAll followed by GetAll over the written keys. -/

theorem lookupKey_insertAll_of_not_mem (k : String) :
    ∀ (kvs : List KeyValue) (st : Store), k ∉ kvs.map KeyValue.key →
      lookupKey (insertAll st kvs) k = lookupKey st k := by
  intro kvs
  induction kvs with
  | nil => intro st _; rfl
  | cons kv rest ih =>
      intro st h
      rw [List.map_cons, List.mem_cons] at h
      push_neg at h
      obtain ⟨h1, h2⟩ := h
      have hstep : insertAll st (kv :: rest)
          = insertAll (insertDoc st kv.key kv.value) rest := rfl
      rw [hstep, ih _ h2]
      exact lookupKey_insertDoc_ne st kv.key k kv.value (Ne.symm h1)

theorem getAll_keys_insertAll :
    ∀ (kvs : List KeyValue) (st : Store), (kvs.map KeyValue.key).Nodup →
      (kvs.map KeyValue.key).map (entryFor (insertAll st kvs)) = kvs := by
  intro kvs
  induction kvs with
  | nil => intro st _; rfl
  | cons kv rest ih =>
      intro st hnd
      rw [List.map_cons] at hnd
      obtain ⟨h1, h2⟩ := List.nodup_cons.mp hnd
      have hstep : insertAll st (kv :: rest)
          = insertAll (insertDoc st kv.key kv.value) rest := rfl
      have hk : lookupKey (insertAll (insertDoc st kv.key kv.value) rest) kv.key
          = some kv.value := by
        rw [lookupKey_insertAll_of_not_mem kv.key rest _ h1]
        exact lookupKey_insertDoc_self st kv.key kv.value
      have hhead : entryFor (insertAll (insertDoc st kv.key kv.value) rest) kv.key
          = kv := by
        simp [entryFor, hk]
      rw [List.map_cons, List.map_cons, hstep, hhead, ih _ h2]

/-- Claim C8: a PutAll of pairwise distinct keys succeeds against the
modelled backend, and a GetAll over exactly the written keys returns the
written pairs — even in the same order, which implies equality as a
set. -/
theorem putAll_then_getAll (st : Store) (kvs : List KeyValue)
    (hnd : (kvs.map KeyValue.key).Nodup) :
    (esPutAll st kvs).1 = Res.ok () ∧
    esGetAll (esPutAll st kvs).2 (kvs.map KeyValue.key) = Res.ok kvs := by
  constructor
  · cases kvs with
    | nil => rfl
    | cons a l => rfl
  · have h2 : (esPutAll st kvs).2 = insertAll st kvs := rfl
    rw [h2, esGetAll_eq, getAll_keys_insertAll kvs st hnd]

/-- Witness for claim C8: two distinct keys, starting from the empty
state. -/
theorem putAll_then_getAll_witness :
    (([⟨"a", [1]⟩, ⟨"b", [2]⟩] : List KeyValue).map KeyValue.key).Nodup ∧
    ((esPutAll [] [⟨"a", [1]⟩, ⟨"b", [2]⟩]).1 = Res.ok () ∧
      esGetAll (esPutAll [] [⟨"a", [1]⟩, ⟨"b", [2]⟩]).2
          (([⟨"a", [1]⟩, ⟨"b", [2]⟩] : List KeyValue).map KeyValue.key)
        = Res.ok [⟨"a", [1]⟩, ⟨"b", [2]⟩]) :=
  ⟨by decide, putAll_then_getAll [] [⟨"a", [1]⟩, ⟨"b", [2]⟩] (by decide)⟩

/-! The aggregated bulk error of PutAll. -/

theorem bulkReasonsAux_no_tail (total : Nat) :
    ∀ (items : List BulkFailedItem) (i : Nat),
      i + items.length ≤ maxBulkErrorReasons - 1 →
      bulkReasonsAux total i items = items.filterMap reasonLine := by
  intro items
  induction items with
  | nil => intro i _; rfl
  | cons item rest ih =>
      intro i h
      simp only [List.length_cons, maxBulkErrorReasons] at h
      have hne : ¬ i = maxBulkErrorReasons - 1 := by
        simp only [maxBulkErrorReasons]
        omega
      have ht := ih (i + 1) (by simp only [maxBulkErrorReasons]; omega)
      cases hr : reasonLine item with
      | some line => simp [bulkReasonsAux, hr, hne, ht, List.filterMap_cons]
      | none => simp [bulkReasonsAux, hr, hne, ht, List.filterMap_cons]

theorem bulkReasonsAux_tail (total : Nat) :
    ∀ (items : List BulkFailedItem) (i : Nat),
      i ≤ maxBulkErrorReasons - 1 → maxBulkErrorReasons - 1 < i + items.length →
      bulkReasonsAux total i items
        = (items.take (maxBulkErrorReasons - i)).filterMap reasonLine
          ++ ["(omitted " ++ toString (total - maxBulkErrorReasons)
              ++ " more errors)"] := by
  intro items
  induction items with
  | nil =>
      intro i h1 h2
      simp only [List.length_nil, maxBulkErrorReasons] at h1 h2
      omega
  | cons item rest ih =>
      intro i h1 h2
      by_cases he : i = maxBulkErrorReasons - 1
      · subst he
        have htake : maxBulkErrorReasons - (maxBulkErrorReasons - 1) = 1 := by
          simp [maxBulkErrorReasons]
        rw [htake]
        cases hr : reasonLine item with
        | some line =>
            simp [bulkReasonsAux, hr, List.filterMap_cons, List.take_succ_cons]
        | none =>
            simp [bulkReasonsAux, hr, List.filterMap_cons, List.take_succ_cons]
      · have hi : i < maxBulkErrorReasons - 1 := lt_of_le_of_ne h1 he
        have ht := ih (i + 1)
          (by simp only [maxBulkErrorReasons] at hi ⊢; omega)
          (by simp only [List.length_cons, maxBulkErrorReasons] at h2 ⊢; omega)
        have htake : maxBulkErrorReasons - i = (maxBulkErrorReasons - (i + 1)) + 1 := by
          simp only [maxBulkErrorReasons] at hi ⊢
          omega
        rw [htake]
        cases hr : reasonLine item with
        | some line =>
            simp [bulkReasonsAux, hr, he, ht, List.filterMap_cons, List.take_succ_cons]
        | none =>
            simp [bulkReasonsAux, hr, he, ht, List.filterMap_cons, List.take_succ_cons]

/-- Claim C3 (amended): a non-empty PutAll whose bulk response carries the
Errors flag returns the single aggregated error built by createBulkError;
its message names the per-key reasons of at most the first
maxBulkErrorReasons (5) failed items, and the "(omitted N more errors)"
tail is appended exactly when at least 5 items failed, with N the number
of failed items beyond 5 — with fewer than 5 failures every failure is
named and no tail appears. -/
theorem putAll_aggregated_error (kvs : List KeyValue) (response : BulkResponse)
    (hkvs : kvs ≠ []) (herr : response.errors = true) :
    esPutAllLogic kvs (.ok response) = Res.err (createBulkError response) ∧
    (response.failed.length < maxBulkErrorReasons →
      bulkReasonsAux response.failed.length 0 response.failed
        = response.failed.filterMap reasonLine) ∧
    (maxBulkErrorReasons ≤ response.failed.length →
      bulkReasonsAux response.failed.length 0 response.failed
        = (response.failed.take maxBulkErrorReasons).filterMap reasonLine
          ++ ["(omitted " ++ toString (response.failed.length - maxBulkErrorReasons)
              ++ " more errors)"]) := by
  refine ⟨?_, ?_, ?_⟩
  · cases kvs with
    | nil => exact absurd rfl hkvs
    | cons a l => simp [esPutAllLogic, herr]
  · intro h
    exact bulkReasonsAux_no_tail _ _ 0
      (by simp only [maxBulkErrorReasons] at h ⊢; omega)
  · intro h
    have ht := bulkReasonsAux_tail response.failed.length response.failed 0
      (by simp [maxBulkErrorReasons])
      (by simp only [maxBulkErrorReasons] at h ⊢; omega)
    simpa using ht

/-- Witness for the amended claim C3: a batch of 10 keys whose bulk
response reports 6 individual failures, one of them without details; the
message names the first five failures (the detail-less one contributes no
line) and ends in the "(omitted 1 more errors)" tail. -/
theorem putAll_aggregated_error_witness :
    bulkDemoKvs ≠ [] ∧ bulkDemoResponse6.errors = true ∧
    (esPutAllLogic bulkDemoKvs (.ok bulkDemoResponse6)
        = Res.err (createBulkError bulkDemoResponse6) ∧
      (bulkDemoResponse6.failed.length < maxBulkErrorReasons →
        bulkReasonsAux bulkDemoResponse6.failed.length 0 bulkDemoResponse6.failed
          = bulkDemoResponse6.failed.filterMap reasonLine) ∧
      (maxBulkErrorReasons ≤ bulkDemoResponse6.failed.length →
        bulkReasonsAux bulkDemoResponse6.failed.length 0 bulkDemoResponse6.failed
          = (bulkDemoResponse6.failed.take maxBulkErrorReasons).filterMap reasonLine
            ++ ["(omitted "
                ++ toString (bulkDemoResponse6.failed.length - maxBulkErrorReasons)
                ++ " more errors)"])) :=
  ⟨by decide, rfl,
    putAll_aggregated_error bulkDemoKvs bulkDemoResponse6 (by decide) rfl⟩

set_option maxRecDepth 100000 in
/-- Claim C3 (counterexample): a PutAll of 10 keys of which exactly 3
individual writes fail returns an aggregated error that names the 3
failures and contains no overflow string at all — the word "omitted" does
not occur in the message, contrary to the claimed "up to 5 reasons plus an
omitted tail" for this input. -/
theorem putAll_three_failures_no_overflow :
    bulkDemoKvs.length = 10 ∧
    bulkDemoResponse3.failed.length = 3 ∧
    esPutAllLogic bulkDemoKvs (.ok bulkDemoResponse3)
      = Res.err (GoError.goErr bulkDemoMessage3) ∧
    hasSub "omitted".toList bulkDemoMessage3.toList = false := by
  decide
